import Mathlib

/-!
# Shallow embedding of the BODS bus-times backend

This file embeds `src/services/bodsService.js` (class `BODSService`) together
with the configuration it receives from `src/server.js`.

Modelling conventions:
* Timestamps (JS `Date` values / `Date.now()`) are rationals counting
  milliseconds.  JS `Date` objects are always truthy, so `a.estimatedTime ||
  a.scheduledTime` always reads `estimatedTime`; both fields are total here,
  exactly as every constructed service object assigns both.  The `Date`
  constructor's clipping of fractional milliseconds is not modelled: times
  stay exact rationals (every property proved here is stable under
  sub-millisecond truncation).
* An `xml2js` node that can repeat is wrapped in `JsArr` where the source
  checks `Array.isArray`; a `Line` element is modelled as the single-object
  case only (a repeated `Line` has no `$` attribute object, which the
  parser's catch already covers).
* `Math.random()` is modelled as a stream `rand : Nat → ℚ` together with a
  consumption index threaded through every function in source order; each
  call site consumes one draw.  A genuine PRNG draw satisfies
  `0 ≤ rand i < 1`, which appears as a hypothesis where a bound is claimed.
* Network I/O (`fetch`) is an input: a `World` record supplies the outcome of
  each upstream request.  The transport layer either rejects (network error)
  or yields an HTTP response with an `ok` flag and a body; bodies arrive
  already structured as the `xml2js`/JSON parse outcome (an `Except` whose
  error case is a parse failure), since byte-level parsing is outside the
  embedding.
* The two `NodeCache` instances from `server.js` (`stdTTL` 300 s and 30 s,
  `useClones:false`) are association lists of entries with absolute expiry
  times; `get` is a pure lazy-expiry read, `set` whole-entry replacement.
* `async`/`await` sequencing is embedded as plain sequential state passing:
  within one request the clock is the single value `World.now` and the
  per-stop fan-out of `getAllClevelandCentreData` completes in registry
  (promise-creation) order.
-/

/-- Departure status strings used by the service. -/
inductive Status where
  | onTime
  | delayed
  | early
  | estimated
  | live
deriving DecidableEq, Repr

/-- Values of the `source` field of a service object. -/
inductive Source where
  | timetable
  | vehicle_tracking
  | fallback
deriving DecidableEq, Repr

/-- One entry produced by `generateDepartureTimes`:
`{ scheduled, estimated, status }`. -/
structure TimeData where
  scheduled : ℚ
  estimated : ℚ
  status : Status
deriving DecidableEq, Repr

/-- The service objects returned to callers.  `operator` is
`stopConfig.operators[0]`, hence `none` when the configured operator list is
empty (JS `undefined`). -/
structure Service where
  routeNumber : String
  destination : String
  operatorName : Option String
  scheduledTime : ℚ
  estimatedTime : ℚ
  status : Status
  source : Source
deriving DecidableEq, Repr

/-- A vehicle observation produced by `parseSIRIVM`.  `routeNumber` is
`journey.PublishedLineName || journey.LineRef` and can be JS `undefined`,
hence an `Option`; `vehicleRef`/`lineRef`/`destination` are defaulted by the
parser and therefore total. -/
structure Vehicle where
  vehicleRef : String
  lineRef : String
  routeNumber : Option String
  destination : String
  latitude : ℚ
  longitude : ℚ
  timestamp : ℚ
deriving DecidableEq, Repr

/-- One entry of `this.stops`. -/
structure StopConfig where
  name : String
  operators : List String
  routes : List String
  datasets : List String
deriving DecidableEq, Repr

/-- `this.stops` from the `BODSService` constructor, in declaration order. -/
def stops : List (String × StopConfig) :=
  [ ("079073279A",
      { name := "Cleveland Centre (Stand O)"
        operators := ["Stagecoach"]
        routes := ["10", "12", "13", "14"]
        datasets := ["18509"] }),
    ("079073279B",
      { name := "Cleveland Centre (Stand P)"
        operators := ["Arriva"]
        routes := ["17A", "17B"]
        datasets := ["15890"] }),
    ("079073279C",
      { name := "Cleveland Centre (Stand Q)"
        operators := ["Arriva"]
        routes := ["29", "63"]
        datasets := ["15890"] }) ]

/-- `this.stops[stopId]` (JS property lookup, `undefined` when absent). -/
def lookupStop (stopId : String) : Option StopConfig :=
  (stops.find? (fun p => p.1 == stopId)).map (·.2)

/-- The route → frequency table inside `estimateFrequency` (minutes). -/
def frequencies : List (String × ℚ) :=
  [("10", 20), ("12", 30), ("13", 25), ("14", 35),
   ("17A", 15), ("17B", 20), ("29", 40), ("63", 45)]

/-- `estimateFrequency(lineName)`: table lookup with default 30 (JS
`frequencies[lineName] || 30`; no table value is falsy, so the
`Option.getD` default coincides).  The argument may be `undefined` (a line
without a `LineName`), hence `Option`. -/
def estimateFrequency (lineName : Option String) : ℚ :=
  match lineName with
  | some n => ((frequencies.find? (fun p => p.1 == n)).map (·.2)).getD 30
  | none => 30

/-- The route → destination table inside `getDestinationForRoute`. -/
def destinations : List (String × String) :=
  [("10", "Lingfield Park"), ("12", "Coulby Newham"), ("13", "Coulby Newham"),
   ("14", "Trimdon Avenue"), ("17A", "Stockton via Ingleby Barwick"),
   ("17B", "Stockton via Thornaby"), ("29", "Redcar"), ("63", "Redcar")]

/-- `getDestinationForRoute(routeNumber)`. -/
def getDestinationForRoute (routeNumber : String) : String :=
  ((destinations.find? (fun p => p.1 == routeNumber)).map (·.2)).getD "City Centre"

/-- `determineStatus(scheduled, estimated)`: the shared delta classification
rule, with the delta measured in minutes. -/
def determineStatus (scheduled estimated : ℚ) : Status :=
  let diff := (estimated - scheduled) / 60000
  if |diff| < 2 then .onTime
  else if diff > 5 then .delayed
  else if diff < -3 then .early
  else .estimated

/-- JS `Math.round`: round half toward positive infinity. -/
def jsRound (q : ℚ) : ℤ := ⌊q + 1/2⌋

/-- `calculateETA(vehicle)`:
`Math.max(1, Math.round(((Math.random()*3) / 25) * 60))`.  The vehicle
argument is ignored by the source; the one `Math.random()` draw is the
argument `r`.  Returns whole minutes. -/
def calculateETA (r : ℚ) : ℤ :=
  max 1 (jsRound (r * 3 / 25 * 60))

/-- The sort key of the comparator
`(a.estimatedTime || a.scheduledTime) - (b.estimatedTime || b.scheduledTime)`:
`Date` objects are truthy, so this is always `estimatedTime`. -/
def effTime (s : Service) : ℚ := s.estimatedTime

/-- Truthiness of a JS string-or-`undefined` value: `undefined` and the empty
string are falsy. -/
def jsTruthyStr : Option String → Bool
  | some s => !(s == "")
  | none => false

/-- JS `a || b` on string-or-`undefined` values. -/
def jsOrStr (a b : Option String) : Option String :=
  if jsTruthyStr a then a else b

/-- JS `a || d` where the right operand is a string literal default. -/
def jsOrStrD (a : Option String) (d : String) : String :=
  match a with
  | some s => if s == "" then d else s
  | none => d

/-- Outcome of one `fetch`: either the promise rejects (network error) or an
HTTP response arrives with its `ok` flag and a body. -/
inductive FetchOutcome (α : Type) where
  | networkError
  | response (ok : Bool) (body : α)

/-- The JSON body of a dataset-metadata response; only its `url` field is
read. -/
structure DatasetMetadata where
  url : Option String

/-- An `xml2js` (`explicitArray:false`) node that holds either a single child
element or an array of them; `Array.isArray` distinguishes the two. -/
inductive JsArr (α : Type) where
  | one (a : α)
  | many (l : List α)

/-- `Array.isArray(x) ? x : [x]` applied to a possibly-`undefined` value:
wrapping `undefined` yields the one-element array `[undefined]`. -/
def jsArrNorm {α : Type} : Option (JsArr α) → List (Option α)
  | none => [none]
  | some (.one a) => [some a]
  | some (.many l) => l.map some

/-- `Array.isArray(x) ? x : [x]` applied to a value known to be present. -/
def jsArrToList {α : Type} : JsArr α → List α
  | .one a => [a]
  | .many l => l

/-- The attribute object `line.$` of a TransXChange `Line` element. -/
structure TXCAttrs where
  id : Option String

/-- A TransXChange `Line` element: `$.id` attribute (the whole attribute
object may be absent, in which case reading `line.$.id` throws) and an
optional `LineName` child. -/
structure TXCLine where
  attrs : Option TXCAttrs
  lineName : Option String

/-- `service.Lines`. -/
structure TXCLines where
  line : Option TXCLine

/-- A `JourneyPattern` element; only the truthiness of its `TimingLinkRef`
child is inspected. -/
structure JourneyPattern where
  timingLinkRef : Option String

/-- `service.StandardService`. -/
structure StandardService where
  journeyPattern : Option (JsArr JourneyPattern)

/-- One TransXChange `Service` element. -/
structure TXCService where
  lines : Option TXCLines
  standardService : Option StandardService

/-- `transXChange.Services`. -/
structure TXCServices where
  service : Option (JsArr TXCService)

/-- The `TransXChange` root element. -/
structure TXCRoot where
  services : Option TXCServices

/-- The root object produced by `xml2js` for a TransXChange document. -/
structure TXCDoc where
  transXChange : Option TXCRoot

/-- `journey.VehicleLocation`; coordinates arrive as already-parsed numbers
(`parseFloat` of the raw text is abstracted). -/
structure SiriLocation where
  latitude : Option ℚ
  longitude : Option ℚ

/-- A SIRI-VM `MonitoredVehicleJourney` element. -/
structure SiriJourney where
  vehicleRef : Option String
  lineRef : Option String
  publishedLineName : Option String
  destinationName : Option String
  vehicleLocation : Option SiriLocation
  recordedAtTime : Option ℚ

/-- A SIRI-VM `VehicleActivity` element. -/
structure SiriActivity where
  monitoredVehicleJourney : Option SiriJourney

/-- `ServiceDelivery.VehicleMonitoringDelivery`. -/
structure SiriVMD where
  vehicleActivity : Option (JsArr SiriActivity)

/-- `Siri.ServiceDelivery`. -/
structure SiriServiceDelivery where
  vehicleMonitoringDelivery : Option SiriVMD

/-- The `Siri` root element. -/
structure SiriRoot where
  serviceDelivery : Option SiriServiceDelivery

/-- The root object produced by `xml2js` for a SIRI-VM document. -/
structure SiriDoc where
  siri : Option SiriRoot

/-- The ambient inputs of one request: the wall clock, the `Math.random`
stream, and the outcome of every upstream fetch.  Bodies are supplied as the
parse outcome (`Except.error` = the parser library rejects the payload). -/
structure World where
  now : ℚ
  rand : ℕ → ℚ
  metadataFetch : String → FetchOutcome (Except Unit DatasetMetadata)
  bodyFetch : String → FetchOutcome (Except Unit TXCDoc)
  liveFetch : FetchOutcome (Except Unit SiriDoc)

/-- One stored `NodeCache` entry with its absolute expiry time (ms). -/
structure CacheLine (α : Type) where
  key : String
  value : α
  expiresAt : ℚ
deriving DecidableEq, Repr

/-- A `NodeCache` instance: its configured `stdTTL` (seconds) and the live
entries. -/
structure TimedCache (α : Type) where
  stdTTL : ℚ
  entries : List (CacheLine α)
deriving DecidableEq, Repr

/-- `cache.get(key)` at wall-clock `now`: lazy expiry, an expired entry is a
miss. -/
def cacheGet {α : Type} (c : TimedCache α) (now : ℚ) (k : String) : Option α :=
  match c.entries.find? (fun e => e.key == k) with
  | some e => if now < e.expiresAt then some e.value else none
  | none => none

/-- `cache.set(key, value, ttl?)`: whole-entry replacement; the TTL override
(seconds) defaults to the instance `stdTTL`. -/
def cacheSet {α : Type} (c : TimedCache α) (now : ℚ) (k : String) (v : α)
    (ttl : Option ℚ) : TimedCache α :=
  { c with entries :=
      ⟨k, v, now + (ttl.getD c.stdTTL) * 1000⟩ ::
        c.entries.filter (fun e => !(e.key == k)) }

/-- The per-route timetable mapping built by `parseTransXChange` /
`fetchTimetableData` (a JS object keyed by line ref). -/
abbrev RouteMap := List (String × List TimeData)

/-- JS property read `m[k]`. -/
def lookupRM (m : RouteMap) (k : String) : Option (List TimeData) :=
  (m.find? (fun p => p.1 == k)).map (·.2)

/-- JS property write `m[k] = v` (overwrite). -/
def rmSet (m : RouteMap) (k : String) (v : List TimeData) : RouteMap :=
  m.filter (fun p => !(p.1 == k)) ++ [(k, v)]

/-- `Object.assign(a, b)`: every key of `b` is written into `a`,
last write wins. -/
def mergeRM (a b : RouteMap) : RouteMap :=
  b.foldl (fun m p => rmSet m p.1 p.2) a

/-- The loop body of `generateDepartureTimes`: `i` is the loop counter, the
second argument the remaining iteration count, `j` the index of the next
`Math.random()` draw.  Each iteration consumes one draw; an adjusted time at
or before `startTime` is not pushed. -/
def gdtFrom (startTime freq : ℚ) (rand : ℕ → ℚ) : ℕ → ℕ → ℕ → List TimeData
  | _, 0, _ => []
  | i, c+1, j =>
    let departureTime := startTime + freq * i * 60000
    let adjustedTime := departureTime + (rand j - 1/2) * 4 * 60000
    (if startTime < adjustedTime then
      [{ scheduled := departureTime, estimated := adjustedTime,
         status := determineStatus departureTime adjustedTime }]
     else []) ++ gdtFrom startTime freq rand (i+1) c (j+1)

/-- `generateDepartureTimes(startTime, frequency, count)`; returns the pushed
entries and the next unconsumed draw index (`count` draws are consumed). -/
def generateDepartureTimes (startTime freq : ℚ) (count : ℕ) (rand : ℕ → ℚ)
    (idx : ℕ) : List TimeData × ℕ :=
  (gdtFrom startTime freq rand 0 count idx, idx + count)

/-- The pattern loop of `extractServiceTimes`.  `lineName` is the value of
`service.Lines.Line.LineName` as a two-level option: the outer `none` means
`service.Lines.Line` is absent, so reading `.LineName` throws and the
surrounding catch returns the entries accumulated so far. -/
def estLoop (now : ℚ) (rand : ℕ → ℚ) (lineName : Option (Option String)) :
    List JourneyPattern → ℕ → List TimeData → List TimeData × ℕ
  | [], j, acc => (acc, j)
  | p :: ps, j, acc =>
    if jsTruthyStr p.timingLinkRef then
      match lineName with
      | none => (acc, j)
      | some ln =>
        let r := generateDepartureTimes now (estimateFrequency ln) 8 rand j
        estLoop now rand lineName ps r.2 (acc ++ r.1)
    else estLoop now rand lineName ps j acc

/-- `extractServiceTimes(service)` with `now` the wall clock. -/
def extractServiceTimes (now : ℚ) (rand : ℕ → ℚ) (service : TXCService)
    (idx : ℕ) : List TimeData × ℕ :=
  match service.standardService with
  | none => ([], idx)
  | some ss =>
    match ss.journeyPattern with
    | none => ([], idx)
    | some jp =>
      estLoop now rand ((service.lines.bind (·.line)).map (·.lineName))
        (jsArrToList jp) idx []

/-- The service loop of `parseTransXChange`.  A `Line` with no attribute
object makes `line.$.id` throw; the surrounding catch then discards
everything and returns the empty mapping (random draws already made stay
consumed). -/
def parseLoop (now : ℚ) (rand : ℕ → ℚ) :
    List (Option TXCService) → ℕ → RouteMap → RouteMap × ℕ
  | [], j, acc => (acc, j)
  | none :: rest, j, acc => parseLoop now rand rest j acc
  | some s :: rest, j, acc =>
    match s.lines with
    | none => parseLoop now rand rest j acc
    | some ls =>
      match ls.line with
      | none => parseLoop now rand rest j acc
      | some line =>
        match line.attrs with
        | none => ([], j)
        | some attrs =>
          match jsOrStr attrs.id line.lineName with
          | none => parseLoop now rand rest j acc
          | some lr =>
            if lr == "" then parseLoop now rand rest j acc
            else
              let r := extractServiceTimes now rand s j
              parseLoop now rand rest r.2 (rmSet acc lr r.1)

/-- `parseTransXChange(xmlData)`: a parser failure or an absent
`TransXChange`/`Services` node yields the empty mapping. -/
def parseTransXChange (input : Except Unit TXCDoc) (now : ℚ) (rand : ℕ → ℚ)
    (idx : ℕ) : RouteMap × ℕ :=
  match input with
  | .error _ => ([], idx)
  | .ok doc =>
    match doc.transXChange with
    | none => ([], idx)
    | some root =>
      match root.services with
      | none => ([], idx)
      | some svcs => parseLoop now rand (jsArrNorm svcs.service) idx []

/-- `fetchTimetableData(datasetIds)`.  Besides the merged mapping it returns
the list of dataset ids for which the per-dataset catch fired (the
`console.warn` failure signals) and the next draw index.  Each loop
iteration: a rejected or non-`ok` metadata fetch and an unparsable metadata
body all throw and are caught (warned); an absent or empty `metadata.url`
(JS falsy) skips silently; a rejected body fetch throws (warned); a non-`ok` body response is
skipped silently by the `if (timetableResponse.ok)` guard. -/
def fetchLoop (w : World) :
    List String → RouteMap × List String × ℕ → RouteMap × List String × ℕ
  | [], acc => acc
  | datasetId :: rest, acc =>
    let rm := acc.1
    let warns := acc.2.1
    let j := acc.2.2
    fetchLoop w rest
      (match w.metadataFetch datasetId with
       | .networkError => (rm, warns ++ [datasetId], j)
       | .response false _ => (rm, warns ++ [datasetId], j)
       | .response true (.error _) => (rm, warns ++ [datasetId], j)
       | .response true (.ok metadata) =>
         match metadata.url with
         | none => (rm, warns, j)
         | some u =>
           if u == "" then (rm, warns, j)
           else
             match w.bodyFetch u with
             | .networkError => (rm, warns ++ [datasetId], j)
             | .response false _ => (rm, warns, j)
             | .response true body =>
               let r := parseTransXChange body w.now w.rand j
               (mergeRM rm r.1, warns, r.2))

/-- `fetchTimetableData(datasetIds)`: the dataset loop run from the empty
accumulator. -/
def fetchTimetableData (w : World) (datasetIds : List String) (idx : ℕ) :
    RouteMap × List String × ℕ :=
  fetchLoop w datasetIds ([], [], idx)

/-- `parseSIRIVM(xmlData)`: a parser failure or an absent root chain yields
the empty list; per-journey fields degrade to their documented defaults. -/
def parseSIRIVM (input : Except Unit SiriDoc) (now : ℚ) : List Vehicle :=
  match input with
  | .error _ => []
  | .ok doc =>
    match (doc.siri.bind (·.serviceDelivery)).bind (·.vehicleMonitoringDelivery) with
    | none => []
    | some delivery =>
      (jsArrNorm delivery.vehicleActivity).foldl (fun vs oact =>
        match oact with
        | none => vs
        | some activity =>
          match activity.monitoredVehicleJourney with
          | none => vs
          | some journey =>
            vs ++ [{ vehicleRef := jsOrStrD journey.vehicleRef "unknown"
                     lineRef := jsOrStrD journey.lineRef "unknown"
                     routeNumber := jsOrStr journey.publishedLineName journey.lineRef
                     destination := jsOrStrD journey.destinationName "Unknown"
                     latitude := (journey.vehicleLocation.bind (·.latitude)).getD 0
                     longitude := (journey.vehicleLocation.bind (·.longitude)).getD 0
                     timestamp := journey.recordedAtTime.getD now }]) []

/-- The mutable fields of the `BODSService` instance: the two injected
`NodeCache` instances and the `cacheHit` flag. -/
structure SState where
  cache : TimedCache (List Service)
  vehicleCache : TimedCache (List Vehicle)
  cacheHit : Bool
deriving Repr

/-- `getVehiclePositions()`: vehicle-cache lookup, then the live-feed fetch;
an `ok` response is parsed and cached at the vehicle cache's default TTL, any
failure (rejection or non-`ok` status) is caught and yields `[]` without
caching. -/
def getVehiclePositions (w : World) (vc : TimedCache (List Vehicle)) :
    List Vehicle × TimedCache (List Vehicle) :=
  match cacheGet vc w.now "vehicle_positions" with
  | some cached => (cached, vc)
  | none =>
    match w.liveFetch with
    | .response true body =>
      let vehicles := parseSIRIVM body w.now
      (vehicles, cacheSet vc w.now "vehicle_positions" vehicles none)
    | _ => ([], vc)

/-- The vehicle filter predicate of `enhanceWithVehicleData`:
`v.routeNumber === service.routeNumber || v.lineRef === service.routeNumber`. -/
def vehicleMatches (route : String) (v : Vehicle) : Bool :=
  v.routeNumber == some route || v.lineRef == route

/-- `enhanceWithVehicleData(services, vehicles)` as a pure map: the source
mutates each matched service in place.  One `Math.random()` draw (inside
`calculateETA`) is consumed per matched service. -/
def enhanceWithVehicleData (w : World) :
    List Service → List Vehicle → ℕ → List Service × ℕ
  | [], _, j => ([], j)
  | s :: ss, vehicles, j =>
    match vehicles.filter (vehicleMatches s.routeNumber) with
    | [] =>
      let r := enhanceWithVehicleData w ss vehicles j
      (s :: r.1, r.2)
    | _ :: _ =>
      let estimatedMinutes := calculateETA (w.rand j)
      let s2 := if 0 < estimatedMinutes then
          { s with estimatedTime := w.now + (estimatedMinutes : ℚ) * 60000,
                   status := .live, source := .vehicle_tracking }
        else s
      let r := enhanceWithVehicleData w ss vehicles (j+1)
      (s2 :: r.1, r.2)

/-- The loop body of `generateFallbackForRoute` (`i` counter, remaining
count, draw index); every iteration pushes, nothing is discarded. -/
def fbAux (w : World) (routeNumber : String) (op : Option String)
    (frequency : ℚ) : ℕ → ℕ → ℕ → List Service
  | _, 0, _ => []
  | i, c+1, j =>
    let baseTime := w.now + frequency * i * 60000
    let variation := (w.rand j - 1/2) * 6 * 60000
    { routeNumber := routeNumber
      destination := getDestinationForRoute routeNumber
      operatorName := op
      scheduledTime := baseTime
      estimatedTime := baseTime + variation
      status := determineStatus baseTime (baseTime + variation)
      source := .fallback } :: fbAux w routeNumber op frequency (i+1) c (j+1)

/-- `generateFallbackForRoute(routeNumber, operator)`; consumes 4 draws. -/
def generateFallbackForRoute (w : World) (routeNumber : String)
    (op : Option String) (idx : ℕ) : List Service × ℕ :=
  (fbAux w routeNumber op (estimateFrequency (some routeNumber)) 0 4 idx, idx + 4)

/-- Stable insertion used to model
`.sort((a, b) => (a.estimatedTime || a.scheduledTime) - (b.estimatedTime || b.scheduledTime))`:
an element goes after every already-placed element with a key `≤` its own. -/
def insertEff (s : Service) : List Service → List Service
  | [] => [s]
  | h :: t => if effTime s < effTime h then s :: h :: t else h :: insertEff s t

/-- The ascending, stable sort of the service-list comparator. -/
def sortByEff (l : List Service) : List Service :=
  l.foldl (fun acc s => insertEff s acc) []

/-- One service object pushed on the timetable branch of
`processBusServices`. -/
def mkTimetableService (cfg : StopConfig) (routeNumber : String)
    (t : TimeData) : Service :=
  { routeNumber := routeNumber
    destination := getDestinationForRoute routeNumber
    operatorName := cfg.operators.head?
    scheduledTime := t.scheduled
    estimatedTime := t.estimated
    status := t.status
    source := .timetable }

/-- `processBusServices(stopConfig, timetableData, vehicles)`: per-route
timetable emission (`routeTimetable && routeTimetable.length > 0`) or
fallback synthesis, per route in declaration order. -/
def buildRouteServices (w : World) (cfg : StopConfig) (td : RouteMap) :
    List String → List Service × ℕ → List Service × ℕ
  | [], acc => acc
  | routeNumber :: rest, acc =>
    match lookupRM td routeNumber with
    | some (t :: ts) =>
      buildRouteServices w cfg td rest
        (acc.1 ++ ((t :: ts).map (mkTimetableService cfg routeNumber)), acc.2)
    | _ =>
      let r := generateFallbackForRoute w routeNumber cfg.operators.head? acc.2
      buildRouteServices w cfg td rest (acc.1 ++ r.1, r.2)

/-- `processBusServices(stopConfig, timetableData, vehicles)`: route build,
live enhancement, sort, top 8. -/
def processBusServices (w : World) (cfg : StopConfig) (td : RouteMap)
    (vehicles : List Vehicle) (idx : ℕ) : List Service × ℕ :=
  let build := buildRouteServices w cfg td cfg.routes ([], idx)
  let enh := enhanceWithVehicleData w build.1 vehicles build.2
  ((sortByEff enh.1).take 8, enh.2)

/-- `getFallbackDataForStop(stopId)`: pure fallback for every route of the
stop, in declaration order. -/
def buildFallbackServices (w : World) (cfg : StopConfig) :
    List String → List Service × ℕ → List Service × ℕ
  | [], acc => acc
  | routeNumber :: rest, acc =>
    let r := generateFallbackForRoute w routeNumber cfg.operators.head? acc.2
    buildFallbackServices w cfg rest (acc.1 ++ r.1, r.2)

/-- `getFallbackDataForStop(stopId)`: pure fallback for every route of the
stop, sorted, top 6.  An unknown stop yields `[]`. -/
def getFallbackDataForStop (w : World) (stopId : String) (idx : ℕ) :
    List Service × ℕ :=
  match lookupStop stopId with
  | none => ([], idx)
  | some cfg =>
    let all := buildFallbackServices w cfg cfg.routes ([], idx)
    ((sortByEff all.1).take 6, all.2)

/-- The cache key `` `stop_${stopId}` ``. -/
def stopCacheKey (stopId : String) : String := "stop_" ++ stopId

/-- The fresh (cache-miss) computation of `getBusTimesForStop` for a
registered stop: fetched timetables, shared vehicle snapshot, processed
services, together with the next draw index. -/
def freshServices (w : World) (st : SState) (cfg : StopConfig) (idx : ℕ) :
    List Service × ℕ :=
  processBusServices w cfg (fetchTimetableData w cfg.datasets idx).1
    (getVehiclePositions w st.vehicleCache).1
    (fetchTimetableData w cfg.datasets idx).2.2

/-- `getBusTimesForStop(stopId)`.  The `catch` arm of the source (6-capped
fallback cached with TTL override 60) has no reachable trigger here: the
awaited callees catch their own failures, so the `try` body never throws and
the fresh result is always cached at the default TTL. -/
def getBusTimesForStop (w : World) (st : SState) (stopId : String) (idx : ℕ) :
    Except String (List Service) × SState × ℕ :=
  match cacheGet st.cache w.now (stopCacheKey stopId) with
  | some cached => (.ok cached, { st with cacheHit := true }, idx)
  | none =>
    match lookupStop stopId with
    | none =>
      (.error ("Unknown stop ID: " ++ stopId), { st with cacheHit := false }, idx)
    | some cfg =>
      let fetched := fetchTimetableData w cfg.datasets idx
      let veh := getVehiclePositions w st.vehicleCache
      let processed := processBusServices w cfg fetched.1 veh.1 fetched.2.2
      (.ok processed.1,
       { cache := cacheSet st.cache w.now (stopCacheKey stopId) processed.1 none
         vehicleCache := veh.2
         cacheHit := false }, processed.2)

/-- `getAllClevelandCentreData()`.  The concurrent per-stop fan-out is
embedded sequentially in registry order (the promises are created in that
order); a per-stop failure is caught and replaced by
`getFallbackDataForStop`.  `runStops` is the per-stop loop. -/
def runStops (w : World) :
    List (String × StopConfig) →
    List (String × List Service) × SState × ℕ →
    List (String × List Service) × SState × ℕ
  | [], acc => acc
  | p :: rest, acc =>
    let r := getBusTimesForStop w acc.2.1 p.1 acc.2.2
    match r.1 with
    | .ok l => runStops w rest (acc.1 ++ [(p.1, l)], r.2.1, r.2.2)
    | .error _ =>
      let fb := getFallbackDataForStop w p.1 r.2.2
      runStops w rest (acc.1 ++ [(p.1, fb.1)], r.2.1, fb.2)

/-- `getAllClevelandCentreData()` proper: the loop over `this.stops`. -/
def getAllClevelandCentreData (w : World) (st : SState) (idx : ℕ) :
    List (String × List Service) × SState × ℕ :=
  runStops w stops ([], st, idx)

/-- The reduction step of `getNextBusGlobally`:
`if (!earliestTime || serviceTime < earliestTime)` — the tracked
`earliestTime` is always the effective time of the tracked service, and a tie
keeps the incumbent. -/
def pickEarlier (acc : Option Service) (s : Service) : Option Service :=
  match acc with
  | none => some s
  | some b => if effTime s < effTime b then some s else some b

/-- The nested `forEach` scan of `getNextBusGlobally` over the per-stop
lists. -/
def findNextBus (lists : List (List Service)) : Option Service :=
  lists.foldl (fun acc ss => ss.foldl pickEarlier acc) none

/-- `getNextBusGlobally()`. -/
def getNextBusGlobally (w : World) (st : SState) (idx : ℕ) :
    Option Service × SState × ℕ :=
  let r := getAllClevelandCentreData w st idx
  (findNextBus (r.1.map (·.2)), r.2.1, r.2.2)

/-- The two `NodeCache` instances as constructed in `server.js`
(`stdTTL` 300 s and 30 s) before any request. -/
def initialState : SState :=
  { cache := { stdTTL := 300, entries := [] }
    vehicleCache := { stdTTL := 30, entries := [] }
    cacheHit := false }

/-- The comparator order of the service sort: non-decreasing effective time. -/
abbrev effLE (a b : Service) : Prop := effTime a ≤ effTime b

/-- A service list sorted the way the comparator sorts. -/
abbrev SortedEff (l : List Service) : Prop := l.Pairwise effLE

/-- The result list of a per-stop call, defaulting to `[]` on the error
branch. -/
def resList (r : Except String (List Service)) : List Service :=
  r.toOption.getD []

/-- The one concrete world used to instantiate universally quantified
theorems: every upstream fetch fails outright and every `Math.random()` draw
is `1/2` (zero variance). -/
def failWorld : World :=
  { now := 0
    rand := fun _ => 1/2
    metadataFetch := fun _ => .networkError
    bodyFetch := fun _ => .networkError
    liveFetch := .networkError }

/-- The shared classification invariant on a returned service: its `status`
is the delta rule applied to its own times, except that a
`vehicle_tracking` service is unconditionally `live`. -/
def statusRuleOK (s : Service) : Prop :=
  s.status = if s.source = Source.vehicle_tracking then Status.live
             else determineStatus s.scheduledTime s.estimatedTime

/-- The classification invariant on a parsed timetable entry. -/
def tdRuleOK (t : TimeData) : Prop :=
  t.status = determineStatus t.scheduled t.estimated

/-- Every entry of every route list of a route mapping satisfies the
classification invariant. -/
def rmRuleOK (m : RouteMap) : Prop :=
  ∀ p ∈ m, ∀ t ∈ p.2, tdRuleOK t

/-- How one input service `s` relates to the corresponding output service
`o` of the live-enhancement step: the identity fields are untouched; with no
matching vehicle `o` is `s` unchanged; with a match `o` is forced live /
vehicle-tracked with a fresh ETA-based estimate; the step never moves a
service out of `vehicle_tracking`, and an output that is not
vehicle-tracked is an untouched input. -/
def EnhRel (w : World) (vehicles : List Vehicle) (s o : Service) : Prop :=
  o.routeNumber = s.routeNumber ∧
  o.destination = s.destination ∧
  o.operatorName = s.operatorName ∧
  o.scheduledTime = s.scheduledTime ∧
  (vehicles.filter (vehicleMatches s.routeNumber) = [] → o = s) ∧
  (vehicles.filter (vehicleMatches s.routeNumber) ≠ [] →
    o.status = Status.live ∧ o.source = Source.vehicle_tracking ∧
    ∃ k : ℕ, o.estimatedTime = w.now + (calculateETA (w.rand k) : ℚ) * 60000) ∧
  (s.source = Source.vehicle_tracking → o.source = Source.vehicle_tracking) ∧
  (o.source ≠ Source.vehicle_tracking → o = s)

/-- "This dataset's upstream fetch returns a failure": the request rejects
or comes back with a non-success status. -/
def datasetFetchFails (w : World) (d : String) : Prop :=
  w.metadataFetch d = .networkError ∨ ∃ b, w.metadataFetch d = .response false b

/-- The live-feed fetch returns a failure. -/
def liveFetchFails (w : World) : Prop :=
  w.liveFetch = .networkError ∨ ∃ b, w.liveFetch = .response false b

/-- A world whose dataset-metadata fetch succeeds with a download URL but
whose dataset-body fetch returns a non-success HTTP status. -/
def silentBodyWorld : World :=
  { now := 0
    rand := fun _ => 1/2
    metadataFetch := fun _ =>
      .response true (.ok { url := some "https://data.example/timetable.xml" })
    bodyFetch := fun _ => .response false (.error ())
    liveFetch := .networkError }

/-- A world whose dataset-metadata fetch succeeds with a download URL but
whose dataset-body fetch rejects with a network error. -/
def rejectBodyWorld : World :=
  { now := 0
    rand := fun _ => 1/2
    metadataFetch := fun _ =>
      .response true (.ok { url := some "https://data.example/timetable.xml" })
    bodyFetch := fun _ => .networkError
    liveFetch := .networkError }

/-- The `k`-th candidate departure synthesized by `generateDepartureTimes`
with first draw index `idx`: scheduled at `startTime + k` frequency steps,
perturbed by the `k`-th draw, kept only when strictly after `startTime`. -/
def gdtEntry (startTime freq : ℚ) (rand : ℕ → ℚ) (idx : ℕ) (k : ℕ) :
    Option TimeData :=
  let dep := startTime + freq * k * 60000
  let adj := dep + (rand (idx + k) - 1/2) * 4 * 60000
  if startTime < adj then
    some { scheduled := dep, estimated := adj,
           status := determineStatus dep adj }
  else none

/-- A state whose timetable cache already holds one service per registered
stop (all entries far from expiry at time 0): the first two stops tie on
effective time 300000, the third is later. -/
def primedState : SState :=
  { cache :=
      { stdTTL := 300
        entries :=
          [ ⟨"stop_079073279A",
              [⟨"10", "Lingfield Park", some "Stagecoach", 300000, 300000,
                Status.onTime, Source.fallback⟩], 1000000⟩,
            ⟨"stop_079073279B",
              [⟨"17A", "Stockton via Ingleby Barwick", some "Arriva", 300000,
                300000, Status.onTime, Source.fallback⟩], 1000000⟩,
            ⟨"stop_079073279C",
              [⟨"29", "Redcar", some "Arriva", 420000, 420000, Status.onTime,
                Source.fallback⟩], 1000000⟩ ] }
    vehicleCache := { stdTTL := 30, entries := [] }
    cacheHit := false }

theorem mem_insertEff {x s : Service} {l : List Service} :
    x ∈ insertEff s l ↔ x = s ∨ x ∈ l := by
  induction l with
  | nil => simp [insertEff]
  | cons h t ih =>
    by_cases hc : effTime s < effTime h
    · simp [insertEff, hc]
    · simp only [insertEff, if_neg hc, List.mem_cons, ih]
      tauto

theorem length_insertEff (s : Service) (l : List Service) :
    (insertEff s l).length = l.length + 1 := by
  induction l with
  | nil => simp [insertEff]
  | cons h t ih =>
    by_cases hc : effTime s < effTime h
    · simp [insertEff, hc]
    · simp [insertEff, hc, ih]

theorem sortedEff_insertEff {s : Service} {l : List Service}
    (h : SortedEff l) : SortedEff (insertEff s l) := by
  induction l with
  | nil => simp [insertEff, SortedEff]
  | cons a t ih =>
    rcases List.pairwise_cons.mp h with ⟨ha, ht⟩
    by_cases hc : effTime s < effTime a
    · have he : insertEff s (a :: t) = s :: a :: t := by simp [insertEff, hc]
      rw [he]
      refine List.pairwise_cons.mpr ⟨?_, h⟩
      intro x hx
      rcases List.mem_cons.mp hx with rfl | hx
      · exact le_of_lt hc
      · exact le_trans (le_of_lt hc) (ha x hx)
    · have he : insertEff s (a :: t) = a :: insertEff s t := by simp [insertEff, hc]
      rw [he]
      refine List.pairwise_cons.mpr ⟨?_, ih ht⟩
      intro x hx
      rcases mem_insertEff.mp hx with rfl | hx
      · exact le_of_not_lt hc
      · exact ha x hx

theorem sortedEff_foldl_insert (l : List Service) :
    ∀ acc : List Service, SortedEff acc →
      SortedEff (l.foldl (fun a s => insertEff s a) acc) := by
  induction l with
  | nil => intro acc h; simpa using h
  | cons s t ih =>
    intro acc h
    exact ih (insertEff s acc) (sortedEff_insertEff h)

theorem sortedEff_sortByEff (l : List Service) : SortedEff (sortByEff l) :=
  sortedEff_foldl_insert l [] (by simp)

theorem mem_foldl_insert (l : List Service) :
    ∀ acc : List Service, ∀ x : Service,
      x ∈ l.foldl (fun a s => insertEff s a) acc ↔ x ∈ acc ∨ x ∈ l := by
  induction l with
  | nil => intro acc x; simp
  | cons s t ih =>
    intro acc x
    rw [List.foldl_cons, ih (insertEff s acc) x, mem_insertEff]
    simp
    tauto

theorem mem_sortByEff {x : Service} {l : List Service} :
    x ∈ sortByEff l ↔ x ∈ l := by
  rw [sortByEff, mem_foldl_insert l [] x]
  simp

theorem length_foldl_insert (l : List Service) :
    ∀ acc : List Service,
      (l.foldl (fun a s => insertEff s a) acc).length = acc.length + l.length := by
  induction l with
  | nil => intro acc; simp
  | cons s t ih =>
    intro acc
    rw [List.foldl_cons, ih (insertEff s acc), length_insertEff]
    simp only [List.length_cons]
    omega

theorem length_sortByEff (l : List Service) :
    (sortByEff l).length = l.length := by
  rw [sortByEff, length_foldl_insert l []]
  simp

theorem sortedEff_take {l : List Service} (n : ℕ) (h : SortedEff l) :
    SortedEff (l.take n) :=
  h.sublist (List.take_sublist n l)

theorem mem_of_mem_take {x : Service} {l : List Service} {n : ℕ}
    (h : x ∈ l.take n) : x ∈ l :=
  (List.take_sublist n l).subset h

theorem one_le_calculateETA (r : ℚ) : 1 ≤ calculateETA r :=
  le_max_left 1 _

theorem enhance_forall₂ (w : World) (vehicles : List Vehicle) :
    ∀ (services : List Service) (j : ℕ),
      List.Forall₂ (EnhRel w vehicles) services
        (enhanceWithVehicleData w services vehicles j).1 := by
  intro services
  induction services with
  | nil => intro j; simp [enhanceWithVehicleData]
  | cons s ss ih =>
    intro j
    cases hf : vehicles.filter (vehicleMatches s.routeNumber) with
    | nil =>
      simp only [enhanceWithVehicleData, hf]
      refine List.Forall₂.cons ?_ (ih j)
      refine ⟨rfl, rfl, rfl, rfl, fun _ => rfl, fun hne => absurd hf hne, fun h => h, fun _ => rfl⟩
    | cons v vt =>
      simp only [enhanceWithVehicleData, hf]
      have hpos : 0 < calculateETA (w.rand j) :=
        lt_of_lt_of_le zero_lt_one (one_le_calculateETA _)
      rw [if_pos hpos]
      refine List.Forall₂.cons ?_ (ih (j+1))
      refine ⟨rfl, rfl, rfl, rfl, ?_, ?_, fun _ => rfl, ?_⟩
      · intro h; rw [h] at hf; cases hf
      · intro _; exact ⟨rfl, rfl, ⟨j, rfl⟩⟩
      · intro h; exact absurd rfl h

theorem enhance_nil_vehicles (w : World) :
    ∀ (services : List Service) (j : ℕ),
      enhanceWithVehicleData w services [] j = (services, j) := by
  intro services
  induction services with
  | nil => intro j; rfl
  | cons s ss ih =>
    intro j
    simp only [enhanceWithVehicleData, List.filter_nil, ih j]

theorem statusRuleOK_enhance {w : World} {vehicles : List Vehicle} :
    ∀ {services : List Service} {j : ℕ},
      (∀ s ∈ services, statusRuleOK s) →
      ∀ o ∈ (enhanceWithVehicleData w services vehicles j).1, statusRuleOK o := by
  intro services
  induction services with
  | nil => intro j _ o ho; simp [enhanceWithVehicleData] at ho
  | cons s ss ih =>
    intro j hall o ho
    have hs : statusRuleOK s := hall s (by simp)
    have hss : ∀ x ∈ ss, statusRuleOK x := fun x hx => hall x (by simp [hx])
    cases hf : vehicles.filter (vehicleMatches s.routeNumber) with
    | nil =>
      simp only [enhanceWithVehicleData, hf] at ho
      rcases List.mem_cons.mp ho with rfl | ho
      · exact hs
      · exact ih hss o ho
    | cons v vt =>
      simp only [enhanceWithVehicleData, hf] at ho
      have hpos : 0 < calculateETA (w.rand j) :=
        lt_of_lt_of_le zero_lt_one (one_le_calculateETA _)
      rw [if_pos hpos] at ho
      rcases List.mem_cons.mp ho with rfl | ho
      · simp [statusRuleOK]
      · exact ih hss o ho

theorem fbAux_mem (w : World) (rn : String) (op : Option String) (f : ℚ) :
    ∀ (c i j : ℕ), ∀ s ∈ fbAux w rn op f i c j,
      s.source = Source.fallback ∧ statusRuleOK s ∧ s.routeNumber = rn ∧
      s.operatorName = op := by
  intro c
  induction c with
  | zero => intro i j s hs; simp [fbAux] at hs
  | succ n ih =>
    intro i j s hs
    simp only [fbAux] at hs
    rcases List.mem_cons.mp hs with rfl | hs
    · refine ⟨rfl, ?_, rfl, rfl⟩
      simp [statusRuleOK]
    · exact ih (i+1) (j+1) s hs

theorem fbAux_length (w : World) (rn : String) (op : Option String) (f : ℚ) :
    ∀ (c i j : ℕ), (fbAux w rn op f i c j).length = c := by
  intro c
  induction c with
  | zero => intro i j; rfl
  | succ n ih => intro i j; simp [fbAux, ih (i+1) (j+1)]

theorem generateFallbackForRoute_mem (w : World) (rn : String)
    (op : Option String) (idx : ℕ) :
    ∀ s ∈ (generateFallbackForRoute w rn op idx).1,
      s.source = Source.fallback ∧ statusRuleOK s ∧ s.routeNumber = rn ∧
      s.operatorName = op :=
  fun s hs => fbAux_mem w rn op _ 4 0 idx s hs

theorem gdtFrom_tdRuleOK (st f : ℚ) (r : ℕ → ℚ) :
    ∀ (c i j : ℕ), ∀ t ∈ gdtFrom st f r i c j, tdRuleOK t := by
  intro c
  induction c with
  | zero => intro i j t ht; simp [gdtFrom] at ht
  | succ n ih =>
    intro i j t ht
    simp only [gdtFrom] at ht
    rcases List.mem_append.mp ht with h1 | h2
    · split at h1
      · rcases List.mem_singleton.mp h1 with rfl
        rfl
      · simp at h1
    · exact ih (i+1) (j+1) t h2

theorem estLoop_tdRuleOK (now : ℚ) (r : ℕ → ℚ) (ln : Option (Option String)) :
    ∀ (ps : List JourneyPattern) (j : ℕ) (acc : List TimeData),
      (∀ t ∈ acc, tdRuleOK t) →
      ∀ t ∈ (estLoop now r ln ps j acc).1, tdRuleOK t := by
  intro ps
  induction ps with
  | nil => intro j acc hacc t ht; exact hacc t ht
  | cons p ps ih =>
    intro j acc hacc t ht
    cases hp : jsTruthyStr p.timingLinkRef with
    | false =>
      simp only [estLoop, hp, Bool.false_eq_true, if_false] at ht
      exact ih j acc hacc t ht
    | true =>
      cases ln with
      | none =>
        simp only [estLoop, hp, if_true] at ht
        exact hacc t ht
      | some lnn =>
        simp only [estLoop, hp, if_true] at ht
        refine ih _ _ ?_ t ht
        intro x hx
        rcases List.mem_append.mp hx with h1 | h2
        · exact hacc x h1
        · exact gdtFrom_tdRuleOK now (estimateFrequency lnn) r 8 0 j x h2

theorem extractServiceTimes_tdRuleOK (now : ℚ) (r : ℕ → ℚ)
    (service : TXCService) (idx : ℕ) :
    ∀ t ∈ (extractServiceTimes now r service idx).1, tdRuleOK t := by
  intro t ht
  unfold extractServiceTimes at ht
  cases hss : service.standardService with
  | none => simp only [hss] at ht; simp at ht
  | some ss =>
    simp only [hss] at ht
    cases hjp : ss.journeyPattern with
    | none => simp only [hjp] at ht; simp at ht
    | some jp =>
      simp only [hjp] at ht
      exact estLoop_tdRuleOK now r _ (jsArrToList jp) idx []
        (by intro x hx; simp at hx) t ht

theorem rmSet_rmRuleOK {m : RouteMap} {k : String} {v : List TimeData}
    (hm : rmRuleOK m) (hv : ∀ t ∈ v, tdRuleOK t) :
    rmRuleOK (rmSet m k v) := by
  intro p hp t ht
  rcases List.mem_append.mp hp with h1 | h2
  · exact hm p (List.mem_of_mem_filter h1) t ht
  · rcases List.mem_singleton.mp h2 with rfl
    exact hv t ht

theorem mergeRM_rmRuleOK {b : RouteMap} :
    ∀ {a : RouteMap}, rmRuleOK a → rmRuleOK b → rmRuleOK (mergeRM a b) := by
  induction b with
  | nil => intro a ha _; exact ha
  | cons p rest ih =>
    intro a ha hb
    have hrest : rmRuleOK rest := by
      intro q hq t ht; exact hb q (by simp [hq]) t ht
    have hstep : rmRuleOK (rmSet a p.1 p.2) :=
      rmSet_rmRuleOK ha (fun t ht => hb p (by simp) t ht)
    exact ih hstep hrest

theorem parseLoop_rmRuleOK (now : ℚ) (r : ℕ → ℚ) :
    ∀ (svcs : List (Option TXCService)) (j : ℕ) (acc : RouteMap),
      rmRuleOK acc → rmRuleOK (parseLoop now r svcs j acc).1 := by
  intro svcs
  induction svcs with
  | nil => intro j acc hacc; exact hacc
  | cons os rest ih =>
    intro j acc hacc
    cases os with
    | none => exact ih j acc hacc
    | some s =>
      cases hl : s.lines with
      | none => simp only [parseLoop, hl]; exact ih j acc hacc
      | some ls =>
        cases hline : ls.line with
        | none => simp only [parseLoop, hl, hline]; exact ih j acc hacc
        | some line =>
          cases hattrs : line.attrs with
          | none =>
            simp only [parseLoop, hl, hline, hattrs]
            intro p hp; simp at hp
          | some attrs =>
            cases href : jsOrStr attrs.id line.lineName with
            | none =>
              simp only [parseLoop, hl, hline, hattrs, href]
              exact ih j acc hacc
            | some lr =>
              by_cases he : lr == ""
              · simp only [parseLoop, hl, hline, hattrs, href, he, if_true]
                exact ih j acc hacc
              · simp only [parseLoop, hl, hline, hattrs, href, he, if_false]
                exact ih _ _
                  (rmSet_rmRuleOK hacc
                    (extractServiceTimes_tdRuleOK now r s j))

theorem parseTransXChange_rmRuleOK (input : Except Unit TXCDoc) (now : ℚ)
    (r : ℕ → ℚ) (idx : ℕ) : rmRuleOK (parseTransXChange input now r idx).1 := by
  unfold parseTransXChange
  cases input with
  | error e => intro p hp; simp at hp
  | ok doc =>
    cases hT : doc.transXChange with
    | none => intro p hp; simp only [hT] at hp; simp at hp
    | some root =>
      cases hS : root.services with
      | none => intro p hp; simp only [hT, hS] at hp; simp at hp
      | some svcs =>
        intro p hp
        simp only [hT, hS] at hp
        exact parseLoop_rmRuleOK now r _ idx []
          (by intro q hq; simp at hq) p hp

theorem fetchLoop_rmRuleOK (w : World) :
    ∀ (ids : List String) (acc : RouteMap × List String × ℕ),
      rmRuleOK acc.1 → rmRuleOK (fetchLoop w ids acc).1 := by
  intro ids
  induction ids with
  | nil => intro acc hacc; exact hacc
  | cons d rest ih =>
    intro acc hacc
    cases hm : w.metadataFetch d with
    | networkError => simp only [fetchLoop, hm]; exact ih _ hacc
    | response ok body =>
      cases ok with
      | false => simp only [fetchLoop, hm]; exact ih _ hacc
      | true =>
        cases body with
        | error e => simp only [fetchLoop, hm]; exact ih _ hacc
        | ok metadata =>
          cases hu : metadata.url with
          | none => simp only [fetchLoop, hm, hu]; exact ih _ hacc
          | some u =>
            by_cases he : u == ""
            · simp only [fetchLoop, hm, hu, he, if_true]
              exact ih _ hacc
            · cases hb : w.bodyFetch u with
              | networkError =>
                simp only [fetchLoop, hm, hu, he, if_false, hb]
                exact ih _ hacc
              | response bok bbody =>
                cases bok with
                | false =>
                  simp only [fetchLoop, hm, hu, he, if_false, hb]
                  exact ih _ hacc
                | true =>
                  simp only [fetchLoop, hm, hu, he, if_false, hb]
                  exact ih _
                    (mergeRM_rmRuleOK hacc
                      (parseTransXChange_rmRuleOK bbody w.now w.rand acc.2.2))

theorem fetchTimetableData_rmRuleOK (w : World) (ids : List String) (idx : ℕ) :
    rmRuleOK (fetchTimetableData w ids idx).1 :=
  fetchLoop_rmRuleOK w ids ([], [], idx) (by intro p hp; simp at hp)

theorem lookupRM_ruleOK {td : RouteMap} {rn : String} {l : List TimeData}
    (h : rmRuleOK td) (hl : lookupRM td rn = some l) : ∀ t ∈ l, tdRuleOK t := by
  unfold lookupRM at hl
  cases hf : td.find? (fun p => p.1 == rn) with
  | none => rw [hf] at hl; simp at hl
  | some p =>
    rw [hf] at hl
    simp at hl
    subst hl
    exact h p (List.mem_of_find?_eq_some hf)

theorem statusRuleOK_mkTimetableService {cfg : StopConfig} {rn : String}
    {t : TimeData} (ht : tdRuleOK t) :
    statusRuleOK (mkTimetableService cfg rn t) := by
  simp only [statusRuleOK, mkTimetableService]
  rw [if_neg (by simp)]
  exact ht

theorem buildRouteServices_statusRuleOK {w : World} {cfg : StopConfig}
    {td : RouteMap} (h : rmRuleOK td) :
    ∀ (routes : List String) (acc : List Service × ℕ),
      (∀ s ∈ acc.1, statusRuleOK s) →
      ∀ s ∈ (buildRouteServices w cfg td routes acc).1, statusRuleOK s := by
  intro routes
  induction routes with
  | nil => intro acc hacc; exact hacc
  | cons rn rest ih =>
    intro acc hacc s hs
    cases hl : lookupRM td rn with
    | none =>
      simp only [buildRouteServices, hl] at hs
      refine ih _ ?_ s hs
      intro x hx
      rcases List.mem_append.mp hx with h1 | h2
      · exact hacc x h1
      · exact (generateFallbackForRoute_mem w rn cfg.operators.head? acc.2 x h2).2.1
    | some l =>
      cases l with
      | nil =>
        simp only [buildRouteServices, hl] at hs
        refine ih _ ?_ s hs
        intro x hx
        rcases List.mem_append.mp hx with h1 | h2
        · exact hacc x h1
        · exact (generateFallbackForRoute_mem w rn cfg.operators.head? acc.2 x h2).2.1
      | cons t ts =>
        simp only [buildRouteServices, hl] at hs
        refine ih _ ?_ s hs
        intro x hx
        rcases List.mem_append.mp hx with h1 | h2
        · exact hacc x h1
        · rcases List.mem_map.mp h2 with ⟨t0, ht0, rfl⟩
          exact statusRuleOK_mkTimetableService
            (lookupRM_ruleOK h hl t0 ht0)

theorem lookupRM_nil (rn : String) : lookupRM [] rn = none := rfl

theorem buildRouteServices_nil_td_fallback {w : World} {cfg : StopConfig} :
    ∀ (routes : List String) (acc : List Service × ℕ),
      (∀ s ∈ acc.1, s.source = Source.fallback) →
      ∀ s ∈ (buildRouteServices w cfg [] routes acc).1,
        s.source = Source.fallback := by
  intro routes
  induction routes with
  | nil => intro acc hacc; exact hacc
  | cons rn rest ih =>
    intro acc hacc s hs
    simp only [buildRouteServices, lookupRM_nil] at hs
    refine ih _ ?_ s hs
    intro x hx
    rcases List.mem_append.mp hx with h1 | h2
    · exact hacc x h1
    · exact (generateFallbackForRoute_mem w rn cfg.operators.head? acc.2 x h2).1

theorem processBusServices_eq (w : World) (cfg : StopConfig) (td : RouteMap)
    (vehicles : List Vehicle) (idx : ℕ) :
    processBusServices w cfg td vehicles idx =
      ((sortByEff (enhanceWithVehicleData w
          (buildRouteServices w cfg td cfg.routes ([], idx)).1 vehicles
          (buildRouteServices w cfg td cfg.routes ([], idx)).2).1).take 8,
       (enhanceWithVehicleData w
          (buildRouteServices w cfg td cfg.routes ([], idx)).1 vehicles
          (buildRouteServices w cfg td cfg.routes ([], idx)).2).2) := rfl

theorem processBusServices_statusRuleOK {w : World} {cfg : StopConfig}
    {td : RouteMap} (vehicles : List Vehicle) (idx : ℕ) (h : rmRuleOK td) :
    ∀ s ∈ (processBusServices w cfg td vehicles idx).1, statusRuleOK s := by
  intro s hs
  rw [processBusServices_eq] at hs
  have hs2 := mem_sortByEff.mp (mem_of_mem_take hs)
  exact statusRuleOK_enhance
    (buildRouteServices_statusRuleOK h cfg.routes ([], idx)
      (by intro x hx; simp at hx)) s hs2

theorem processBusServices_sorted (w : World) (cfg : StopConfig)
    (td : RouteMap) (vehicles : List Vehicle) (idx : ℕ) :
    SortedEff (processBusServices w cfg td vehicles idx).1 := by
  rw [processBusServices_eq]
  exact sortedEff_take 8 (sortedEff_sortByEff _)

theorem processBusServices_capped (w : World) (cfg : StopConfig)
    (td : RouteMap) (vehicles : List Vehicle) (idx : ℕ) :
    (processBusServices w cfg td vehicles idx).1.length ≤ 8 := by
  rw [processBusServices_eq]
  simp only [List.length_take]
  exact min_le_left _ _

theorem fetchLoop_allFail (w : World) :
    ∀ (ids : List String) (rm : RouteMap) (warns : List String) (j : ℕ),
      (∀ d ∈ ids, datasetFetchFails w d) →
      fetchLoop w ids (rm, warns, j) = (rm, warns ++ ids, j) := by
  intro ids
  induction ids with
  | nil => intro rm warns j _; simp [fetchLoop]
  | cons d rest ih =>
    intro rm warns j h
    have hrest : ∀ x ∈ rest, datasetFetchFails w x :=
      fun x hx => h x (by simp [hx])
    rcases h d (by simp) with hne | ⟨b, hb⟩
    · simp only [fetchLoop, hne]
      rw [ih (rm) (warns ++ [d]) j hrest]
      simp
    · simp only [fetchLoop, hb]
      rw [ih (rm) (warns ++ [d]) j hrest]
      simp

theorem fetchTimetableData_allFail (w : World) (ids : List String) (idx : ℕ)
    (h : ∀ d ∈ ids, datasetFetchFails w d) :
    fetchTimetableData w ids idx = ([], ids, idx) := by
  unfold fetchTimetableData
  rw [fetchLoop_allFail w ids [] [] idx h]
  simp

theorem getVehiclePositions_fail (w : World) (vc : TimedCache (List Vehicle))
    (hvc : cacheGet vc w.now "vehicle_positions" = none)
    (hl : liveFetchFails w) : getVehiclePositions w vc = ([], vc) := by
  unfold getVehiclePositions
  rw [hvc]
  rcases hl with h | ⟨b, h⟩ <;> simp only [h]

theorem gdtFrom_eq (st f : ℚ) (r : ℕ → ℚ) :
    ∀ (c i j : ℕ),
      gdtFrom st f r i c j = (List.range c).filterMap (fun k =>
        if st < st + f * (i + k) * 60000 + (r (j + k) - 1/2) * 4 * 60000 then
          some { scheduled := st + f * (i + k) * 60000,
                 estimated :=
                   st + f * (i + k) * 60000 + (r (j + k) - 1/2) * 4 * 60000,
                 status := determineStatus (st + f * (i + k) * 60000)
                   (st + f * (i + k) * 60000 + (r (j + k) - 1/2) * 4 * 60000) }
        else none) := by
  intro c
  induction c with
  | zero => intro i j; simp [gdtFrom]
  | succ n ih =>
    intro i j
    have hstep : gdtFrom st f r i (n+1) j =
      (if st < st + f * i * 60000 + (r j - 1/2) * 4 * 60000 then
         [{ scheduled := st + f * i * 60000,
            estimated := st + f * i * 60000 + (r j - 1/2) * 4 * 60000,
            status := determineStatus (st + f * i * 60000)
              (st + f * i * 60000 + (r j - 1/2) * 4 * 60000) }]
       else []) ++ gdtFrom st f r (Nat.succ i) n (Nat.succ j) := rfl
    rw [hstep, ih (Nat.succ i) (Nat.succ j), List.range_succ_eq_map,
      List.filterMap_cons, List.filterMap_map]
    have hcast1 : ∀ k : ℕ,
        ((i : ℚ) + ((Nat.succ k : ℕ) : ℚ)) = ((Nat.succ i : ℕ) : ℚ) + (k : ℚ) :=
      fun k => by push_cast; ring
    have harg2 : ∀ k : ℕ, j + Nat.succ k = Nat.succ j + k := fun k => by omega
    simp only [Function.comp_def, hcast1, harg2, Nat.add_zero, Nat.cast_zero,
      add_zero]
    by_cases hc : st < st + f * i * 60000 + (r j - 1/2) * 4 * 60000
    · rw [if_pos hc, if_pos hc, List.singleton_append]
    · rw [if_neg hc, if_neg hc, List.nil_append]

theorem generateDepartureTimes_eq (st f : ℚ) (c : ℕ) (r : ℕ → ℚ) (idx : ℕ) :
    generateDepartureTimes st f c r idx =
      ((List.range c).filterMap (gdtEntry st f r idx), idx + c) := by
  unfold generateDepartureTimes
  rw [gdtFrom_eq st f r c 0 idx]
  refine congrArg (fun fn => (List.filterMap fn (List.range c), idx + c)) ?_
  funext k
  simp [gdtEntry, Nat.zero_add]

theorem generateDepartureTimes_bounds (st f : ℚ) (c : ℕ) (r : ℕ → ℚ)
    (idx : ℕ) (hr : ∀ i, 0 ≤ r i ∧ r i < 1) :
    ∀ e ∈ (generateDepartureTimes st f c r idx).1,
      |e.estimated - e.scheduled| ≤ 120000 ∧ st < e.estimated := by
  intro e he
  rw [generateDepartureTimes_eq] at he
  rcases List.mem_filterMap.mp he with ⟨k, _, hek⟩
  simp only [gdtEntry] at hek
  split at hek
  · rename_i hcond
    cases hek
    have h0 := (hr (idx + k)).1
    have h1 := (hr (idx + k)).2
    constructor
    · dsimp only
      rw [abs_le]
      constructor <;> nlinarith
    · exact hcond
  · cases hek

theorem foldl_pickEarlier_some (l : List Service) :
    ∀ a : Service, ∃ b,
      l.foldl pickEarlier (some a) = some b ∧
      (∃ l1 l2, a :: l = l1 ++ b :: l2 ∧ ∀ x ∈ l1, effTime b < effTime x) ∧
      (∀ x ∈ a :: l, effTime b ≤ effTime x) := by
  induction l with
  | nil =>
    intro a
    exact ⟨a, rfl, ⟨[], [], rfl, by simp⟩, by simp⟩
  | cons s t ih =>
    intro a
    by_cases hc : effTime s < effTime a
    · have hstep : (s :: t).foldl pickEarlier (some a) =
          t.foldl pickEarlier (some s) := by
        simp [List.foldl_cons, pickEarlier, hc]
      rcases ih s with ⟨b, hb, ⟨l1, l2, hsplit, hlt⟩, hmin⟩
      refine ⟨b, by rw [hstep]; exact hb, ⟨a :: l1, l2, ?_, ?_⟩, ?_⟩
      · rw [List.cons_append, ← hsplit]
      · intro x hx
        rcases List.mem_cons.mp hx with rfl | hx
        · exact lt_of_le_of_lt (hmin s (by simp)) hc
        · exact hlt x hx
      · intro x hx
        rcases List.mem_cons.mp hx with rfl | hx
        · exact le_of_lt (lt_of_le_of_lt (hmin s (by simp)) hc)
        · exact hmin x hx
    · have hstep : (s :: t).foldl pickEarlier (some a) =
          t.foldl pickEarlier (some a) := by
        simp [List.foldl_cons, pickEarlier, hc]
      rcases ih a with ⟨b, hb, ⟨l1, l2, hsplit, hlt⟩, hmin⟩
      cases l1 with
      | nil =>
        simp only [List.nil_append] at hsplit
        injection hsplit with h1 h2
        subst h1
        subst h2
        refine ⟨a, by rw [hstep]; exact hb, ⟨[], s :: t, by simp, by simp⟩, ?_⟩
        intro x hx
        rcases List.mem_cons.mp hx with rfl | hx
        · exact le_refl _
        rcases List.mem_cons.mp hx with rfl | hx
        · exact le_of_not_lt hc
        · exact hmin x (by simp [hx])
      | cons a1 l1' =>
        rw [List.cons_append] at hsplit
        injection hsplit with h1 h2
        subst h1
        subst h2
        refine ⟨b, by rw [hstep]; exact hb, ⟨a :: s :: l1', l2, by simp, ?_⟩, ?_⟩
        · intro x hx
          rcases List.mem_cons.mp hx with rfl | hx
          · exact hlt x (by simp)
          rcases List.mem_cons.mp hx with rfl | hx
          · exact lt_of_lt_of_le (hlt a (by simp)) (le_of_not_lt hc)
          · exact hlt x (by simp [hx])
        · intro x hx
          rcases List.mem_cons.mp hx with rfl | hx
          · exact hmin x (by simp)
          rcases List.mem_cons.mp hx with rfl | hx
          · exact le_trans (le_of_lt (hlt a (by simp))) (le_of_not_lt hc)
          · exact hmin x (by simp [hx])

theorem foldl_pickEarlier_char (l : List Service) :
    (l.foldl pickEarlier none = none ↔ l = []) ∧
    ∀ b, l.foldl pickEarlier none = some b →
      (∃ l1 l2, l = l1 ++ b :: l2 ∧ ∀ x ∈ l1, effTime b < effTime x) ∧
      ∀ x ∈ l, effTime b ≤ effTime x := by
  cases l with
  | nil => simp
  | cons a t =>
    have h1 : (a :: t).foldl pickEarlier none = t.foldl pickEarlier (some a) := by
      simp [List.foldl_cons, pickEarlier]
    rcases foldl_pickEarlier_some t a with ⟨b, hb, hsplit, hmin⟩
    constructor
    · rw [h1, hb]
      simp
    · intro b' hb'
      rw [h1, hb] at hb'
      rcases Option.some.injEq _ _ ▸ hb' with rfl
      exact ⟨hsplit, hmin⟩

theorem findNextBus_eq_flatten (lists : List (List Service)) :
    findNextBus lists = (lists.flatten).foldl pickEarlier none := by
  unfold findNextBus
  rw [List.foldl_flatten]

theorem cacheGet_cacheSet_self {α : Type} (c : TimedCache α) (now now2 : ℚ)
    (k : String) (v : α) (ttl : Option ℚ)
    (h : now2 < now + (ttl.getD c.stdTTL) * 1000) :
    cacheGet (cacheSet c now k v ttl) now2 k = some v := by
  unfold cacheGet cacheSet
  rw [List.find?_cons_of_pos _ (by simp)]
  simp only [if_pos h]

theorem getBusTimesForStop_hit (w : World) (st : SState) (stopId : String)
    (idx : ℕ) (l : List Service)
    (hhit : cacheGet st.cache w.now (stopCacheKey stopId) = some l) :
    getBusTimesForStop w st stopId idx =
      (.ok l, { st with cacheHit := true }, idx) := by
  unfold getBusTimesForStop
  rw [hhit]

theorem getBusTimesForStop_fresh (w : World) (st : SState) (stopId : String)
    (cfg : StopConfig) (idx : ℕ)
    (hmiss : cacheGet st.cache w.now (stopCacheKey stopId) = none)
    (hreg : lookupStop stopId = some cfg) :
    getBusTimesForStop w st stopId idx =
      (.ok (freshServices w st cfg idx).1,
       { cache := cacheSet st.cache w.now (stopCacheKey stopId)
           (freshServices w st cfg idx).1 none
         vehicleCache := (getVehiclePositions w st.vehicleCache).2
         cacheHit := false },
       (freshServices w st cfg idx).2) := by
  unfold getBusTimesForStop
  rw [hmiss, hreg]
  rfl

theorem estLoop_truthy_step (now : ℚ) (r : ℕ → ℚ) (ln : Option String)
    (p : JourneyPattern) (ps : List JourneyPattern) (j : ℕ)
    (acc : List TimeData) (hp : jsTruthyStr p.timingLinkRef = true) :
    estLoop now r (some ln) (p :: ps) j acc =
      estLoop now r (some ln) ps (j + 8)
        (acc ++ (generateDepartureTimes now (estimateFrequency ln) 8 r j).1) := by
  simp only [estLoop, hp, if_true]
  rfl

theorem runStops_keys (w : World) :
    ∀ (sl : List (String × StopConfig))
      (acc : List (String × List Service) × SState × ℕ),
      (runStops w sl acc).1.map (·.1) = acc.1.map (·.1) ++ sl.map (·.1) := by
  intro sl
  induction sl with
  | nil => intro acc; simp [runStops]
  | cons p rest ih =>
    intro acc
    cases hr : (getBusTimesForStop w acc.2.1 p.1 acc.2.2).1 with
    | ok l =>
      simp only [runStops, hr, ih]
      simp
    | error e =>
      simp only [runStops, hr, ih]
      simp

theorem buildFallbackServices_mem {w : World} {cfg : StopConfig} :
    ∀ (routes : List String) (acc : List Service × ℕ),
      (∀ s ∈ acc.1, statusRuleOK s ∧ s.source = Source.fallback) →
      ∀ s ∈ (buildFallbackServices w cfg routes acc).1,
        statusRuleOK s ∧ s.source = Source.fallback := by
  intro routes
  induction routes with
  | nil => intro acc hacc; exact hacc
  | cons rn rest ih =>
    intro acc hacc s hs
    simp only [buildFallbackServices] at hs
    refine ih _ ?_ s hs
    intro x hx
    rcases List.mem_append.mp hx with h1 | h2
    · exact hacc x h1
    · have := generateFallbackForRoute_mem w rn cfg.operators.head? acc.2 x h2
      exact ⟨this.2.1, this.1⟩

theorem getFallbackDataForStop_props (w : World) (stopId : String) (idx : ℕ) :
    SortedEff (getFallbackDataForStop w stopId idx).1 ∧
    (getFallbackDataForStop w stopId idx).1.length ≤ 6 ∧
    ∀ s ∈ (getFallbackDataForStop w stopId idx).1,
      statusRuleOK s ∧ s.source = Source.fallback := by
  unfold getFallbackDataForStop
  cases h : lookupStop stopId with
  | none =>
    refine ⟨by simp [SortedEff], by simp, ?_⟩
    intro s hs; simp at hs
  | some cfg =>
    refine ⟨sortedEff_take 6 (sortedEff_sortByEff _), ?_, ?_⟩
    · simp only [List.length_take]
      exact min_le_left _ _
    · intro s hs
      exact buildFallbackServices_mem cfg.routes ([], idx)
        (by intro x hx; simp at hx)
        s (mem_sortByEff.mp (mem_of_mem_take hs))

/-- C5: a call for a stop id outside the registry (with nothing cached under
that key) raises the unknown-stop error — it does not return a list — and
leaves both caches exactly as they were; only the `cacheHit` flag is reset. -/
theorem c5_unknown_stop (w : World) (st : SState) (stopId : String) (idx : ℕ)
    (hmiss : cacheGet st.cache w.now (stopCacheKey stopId) = none)
    (hunk : lookupStop stopId = none) :
    getBusTimesForStop w st stopId idx =
      (.error ("Unknown stop ID: " ++ stopId),
       { cache := st.cache, vehicleCache := st.vehicleCache,
         cacheHit := false }, idx) := by
  unfold getBusTimesForStop
  rw [hmiss, hunk]

/-- C5 witness: the unregistered id `"NOPE"` against the initial state. -/
theorem c5_unknown_stop_witness :
    cacheGet initialState.cache failWorld.now (stopCacheKey "NOPE") = none ∧
    lookupStop "NOPE" = none ∧
    getBusTimesForStop failWorld initialState "NOPE" 0 =
      (.error ("Unknown stop ID: " ++ "NOPE"),
       { cache := initialState.cache, vehicleCache := initialState.vehicleCache,
         cacheHit := false }, 0) :=
  ⟨rfl, by decide, c5_unknown_stop failWorld initialState "NOPE" 0 rfl (by decide)⟩

/-- C7: for a registered stop, two immediate successive calls within the
cache TTL return identical results and the second call is served from cache
with the cache-hit flag reading true: a fresh (cache-miss) first call writes
an entry at the default TTL which the second call hits while unexpired, and
when an unexpired entry already exists both calls return it unchanged. -/
theorem c7_idempotent_within_ttl (w1 w2 : World) (st : SState)
    (stopId : String) (cfg : StopConfig) (idx1 idx2 : ℕ)
    (hreg : lookupStop stopId = some cfg) :
    (cacheGet st.cache w1.now (stopCacheKey stopId) = none →
     w2.now < w1.now + st.cache.stdTTL * 1000 →
     (getBusTimesForStop w2 (getBusTimesForStop w1 st stopId idx1).2.1 stopId
        idx2).1 = (getBusTimesForStop w1 st stopId idx1).1 ∧
     (getBusTimesForStop w2 (getBusTimesForStop w1 st stopId idx1).2.1 stopId
        idx2).2.1.cacheHit = true) ∧
    (∀ l, cacheGet st.cache w1.now (stopCacheKey stopId) = some l →
     cacheGet st.cache w2.now (stopCacheKey stopId) = some l →
     (getBusTimesForStop w2 (getBusTimesForStop w1 st stopId idx1).2.1 stopId
        idx2).1 = (getBusTimesForStop w1 st stopId idx1).1 ∧
     (getBusTimesForStop w2 (getBusTimesForStop w1 st stopId idx1).2.1 stopId
        idx2).2.1.cacheHit = true) := by
  constructor
  · intro hmiss httl
    rw [getBusTimesForStop_fresh w1 st stopId cfg idx1 hmiss hreg]
    rw [getBusTimesForStop_hit w2 _ stopId idx2 (freshServices w1 st cfg idx1).1
      (cacheGet_cacheSet_self st.cache w1.now w2.now (stopCacheKey stopId)
        (freshServices w1 st cfg idx1).1 none httl)]
    exact ⟨rfl, rfl⟩
  · intro l h1 h2
    rw [getBusTimesForStop_hit w1 st stopId idx1 l h1]
    dsimp only
    rw [getBusTimesForStop_hit w2
      { cache := st.cache, vehicleCache := st.vehicleCache, cacheHit := true }
      stopId idx2 l h2]
    exact ⟨rfl, rfl⟩

/-- C7 witness: two successive calls for Stand P against the initial state,
the second 100 s later (within the 300 s default TTL). -/
theorem c7_idempotent_within_ttl_witness :
    lookupStop "079073279B" =
      some (⟨"Cleveland Centre (Stand P)", ["Arriva"], ["17A", "17B"],
        ["15890"]⟩ : StopConfig) ∧
    cacheGet initialState.cache failWorld.now (stopCacheKey "079073279B") = none ∧
    ((100000 : ℚ) < failWorld.now + initialState.cache.stdTTL * 1000) ∧
    ((getBusTimesForStop { failWorld with now := 100000 }
        (getBusTimesForStop failWorld initialState "079073279B" 0).2.1
        "079073279B" 0).1 =
      (getBusTimesForStop failWorld initialState "079073279B" 0).1 ∧
     (getBusTimesForStop { failWorld with now := 100000 }
        (getBusTimesForStop failWorld initialState "079073279B" 0).2.1
        "079073279B" 0).2.1.cacheHit = true) :=
  ⟨by decide, rfl, by with_unfolding_all decide,
   (c7_idempotent_within_ttl failWorld { failWorld with now := 100000 }
     initialState "079073279B"
     ⟨"Cleveland Centre (Stand P)", ["Arriva"], ["17A", "17B"], ["15890"]⟩
     0 0 (by decide)).1 rfl
     (by with_unfolding_all decide)⟩

/-- C4: a fresh call for a registered stop returns a list (no error) sorted
non-decreasing by effective time with at most 8 entries, and the pure
fallback path returns a list sorted the same way with at most 6 entries. -/
theorem c4_sorted_capped :
    (∀ (w : World) (st : SState) (stopId : String) (cfg : StopConfig) (idx : ℕ),
      lookupStop stopId = some cfg →
      cacheGet st.cache w.now (stopCacheKey stopId) = none →
      (getBusTimesForStop w st stopId idx).1 =
        .ok (resList (getBusTimesForStop w st stopId idx).1) ∧
      SortedEff (resList (getBusTimesForStop w st stopId idx).1) ∧
      (resList (getBusTimesForStop w st stopId idx).1).length ≤ 8) ∧
    (∀ (w : World) (stopId : String) (idx : ℕ),
      SortedEff (getFallbackDataForStop w stopId idx).1 ∧
      (getFallbackDataForStop w stopId idx).1.length ≤ 6) := by
  constructor
  · intro w st stopId cfg idx hreg hmiss
    rw [getBusTimesForStop_fresh w st stopId cfg idx hmiss hreg]
    refine ⟨rfl, ?_, ?_⟩
    · exact processBusServices_sorted w cfg _ _ _
    · exact processBusServices_capped w cfg _ _ _
  · intro w stopId idx
    exact ⟨(getFallbackDataForStop_props w stopId idx).1,
      (getFallbackDataForStop_props w stopId idx).2.1⟩

/-- C4 witness: a fresh call for Stand O against the initial state. -/
theorem c4_sorted_capped_witness :
    lookupStop "079073279A" =
      some (⟨"Cleveland Centre (Stand O)", ["Stagecoach"],
        ["10", "12", "13", "14"], ["18509"]⟩ : StopConfig) ∧
    cacheGet initialState.cache failWorld.now (stopCacheKey "079073279A") = none ∧
    ((getBusTimesForStop failWorld initialState "079073279A" 0).1 =
       .ok (resList (getBusTimesForStop failWorld initialState "079073279A" 0).1) ∧
     SortedEff (resList (getBusTimesForStop failWorld initialState "079073279A" 0).1) ∧
     (resList (getBusTimesForStop failWorld initialState "079073279A" 0).1).length ≤ 8) :=
  ⟨by decide, rfl,
   c4_sorted_capped.1 failWorld initialState "079073279A"
     ⟨"Cleveland Centre (Stand O)", ["Stagecoach"], ["10", "12", "13", "14"],
       ["18509"]⟩ 0 (by decide) rfl⟩

/-- C3: every timetable entry produced by the fetch/parse pipeline carries
the status computed by the delta rule from its own scheduled/estimated pair;
every service produced by `processBusServices` from such data, and every
pure-fallback service, has `status` equal to the delta rule on its own
times, except that `vehicle_tracking` services are unconditionally `live`. -/
theorem c3_status_rule :
    (∀ (w : World) (ds : List String) (idx : ℕ),
       rmRuleOK (fetchTimetableData w ds idx).1) ∧
    (∀ (w : World) (cfg : StopConfig) (td : RouteMap)
       (vehicles : List Vehicle) (idx : ℕ), rmRuleOK td →
       ∀ s ∈ (processBusServices w cfg td vehicles idx).1, statusRuleOK s) ∧
    (∀ (w : World) (stopId : String) (idx : ℕ),
       ∀ s ∈ (getFallbackDataForStop w stopId idx).1, statusRuleOK s) :=
  ⟨fun w ds idx => fetchTimetableData_rmRuleOK w ds idx,
   fun _ _ _ vehicles idx h => processBusServices_statusRuleOK vehicles idx h,
   fun w stopId idx s hs => ((getFallbackDataForStop_props w stopId idx).2.2 s hs).1⟩

/-- C3 witness: the empty route mapping (every dataset fetch failed)
processed for Stand O with no vehicles. -/
theorem c3_status_rule_witness :
    rmRuleOK ([] : RouteMap) ∧
    (∀ s ∈ (processBusServices failWorld
        ⟨"Cleveland Centre (Stand O)", ["Stagecoach"],
          ["10", "12", "13", "14"], ["18509"]⟩ [] [] 0).1, statusRuleOK s) :=
  ⟨by intro p hp; simp at hp,
   c3_status_rule.2.1 failWorld
     ⟨"Cleveland Centre (Stand O)", ["Stagecoach"],
       ["10", "12", "13", "14"], ["18509"]⟩ [] [] 0
     (by intro p hp; simp at hp)⟩

/-- C6: live enhancement relates input to output services pointwise — the
identity fields are never modified, a service with no matching vehicle
observation is returned unchanged, a service with a match is forced to
`status = live` and `source = vehicle_tracking` with a fresh ETA-based
estimate (the default ETA estimator always returns an integer number of
minutes at least 1, so every match enhances), and the step never moves a
service out of `vehicle_tracking`. -/
theorem c6_enhancement_frame :
    (∀ r : ℚ, 1 ≤ calculateETA r) ∧
    ∀ (w : World) (vehicles : List Vehicle) (services : List Service) (j : ℕ),
      List.Forall₂ (EnhRel w vehicles) services
        (enhanceWithVehicleData w services vehicles j).1 :=
  ⟨one_le_calculateETA,
   fun w vehicles services j => enhance_forall₂ w vehicles services j⟩

/-- C6 witness: one timetable service with one matching vehicle observation
in the all-failing world. -/
theorem c6_enhancement_frame_witness :
    (1 : ℤ) ≤ calculateETA (1/2) ∧
    List.Forall₂
      (EnhRel failWorld
        [⟨"veh1", "10", some "10", "Lingfield Park", 0, 0, 0⟩])
      [⟨"10", "Lingfield Park", some "Stagecoach", 0, 0, Status.onTime,
        Source.timetable⟩]
      (enhanceWithVehicleData failWorld
        [⟨"10", "Lingfield Park", some "Stagecoach", 0, 0, Status.onTime,
          Source.timetable⟩]
        [⟨"veh1", "10", some "10", "Lingfield Park", 0, 0, 0⟩] 0).1 :=
  ⟨c6_enhancement_frame.1 (1/2),
   c6_enhancement_frame.2 failWorld
     [⟨"veh1", "10", some "10", "Lingfield Park", 0, 0, 0⟩]
     [⟨"10", "Lingfield Park", some "Stagecoach", 0, 0, Status.onTime,
       Source.timetable⟩] 0⟩

/-- C10: `generateFallbackForRoute` always returns exactly 4 services, the
first scheduled at the generation instant itself; with an adversarial (but
legal) random draw of 0 the first service's estimate lies a full 3 minutes
strictly in the past. -/
theorem c10_fallback_shape (w : World) (rn : String) (op : Option String)
    (idx : ℕ) :
    (generateFallbackForRoute w rn op idx).1.length = 4 ∧
    ((generateFallbackForRoute w rn op idx).1.head?).map (·.scheduledTime) =
      some w.now ∧
    (∀ s ∈ (generateFallbackForRoute w rn op idx).1,
       s.source = Source.fallback) ∧
    ((generateFallbackForRoute { w with rand := fun _ => 0 } rn op idx).1.head?).map
        (·.estimatedTime) = some (w.now - 180000) ∧
    w.now - 180000 < w.now := by
  refine ⟨?_, ?_, ?_, ?_, by linarith⟩
  · exact fbAux_length w rn op _ 4 0 idx
  · simp [generateFallbackForRoute, fbAux]
  · intro s hs
    exact (generateFallbackForRoute_mem w rn op idx s hs).1
  · simp [generateFallbackForRoute, fbAux]
    ring_nf

/-- C10 witness: route `"29"` for Arriva in the all-failing world. -/
theorem c10_fallback_shape_witness :
    (generateFallbackForRoute failWorld "29" (some "Arriva") 0).1.length = 4 ∧
    ((generateFallbackForRoute failWorld "29" (some "Arriva") 0).1.head?).map
      (·.scheduledTime) = some failWorld.now ∧
    (∀ s ∈ (generateFallbackForRoute failWorld "29" (some "Arriva") 0).1,
       s.source = Source.fallback) ∧
    ((generateFallbackForRoute { failWorld with rand := fun _ => 0 } "29"
        (some "Arriva") 0).1.head?).map (·.estimatedTime) =
      some (failWorld.now - 180000) ∧
    failWorld.now - 180000 < failWorld.now :=
  c10_fallback_shape failWorld "29" (some "Arriva") 0

theorem resList_ok (l : List Service) : resList (.ok l) = l := rfl

/-- C9: the schedule synthesis — `estimateFrequency` falls back to 30
minutes for a route outside the table; `generateDepartureTimes` synthesizes
exactly the 8 candidates spaced by the given frequency starting at the
current instant, consuming 8 draws, keeping a candidate exactly when its
perturbed time is strictly after the current instant; with draws in `[0,1)`
every kept entry is perturbed by at most ±2 minutes and lies strictly in the
future; and each journey pattern with a truthy timing-link reference
contributes exactly one such 8-candidate synthesis at the per-route
frequency of the line's name. -/
theorem c9_departure_synthesis :
    estimateFrequency none = 30 ∧
    (∀ n : String, frequencies.find? (fun p => p.1 == n) = none →
      estimateFrequency (some n) = 30) ∧
    (∀ (st f : ℚ) (r : ℕ → ℚ) (idx : ℕ),
      generateDepartureTimes st f 8 r idx =
        ((List.range 8).filterMap (gdtEntry st f r idx), idx + 8)) ∧
    (∀ (st f : ℚ) (r : ℕ → ℚ) (idx : ℕ), (∀ i, 0 ≤ r i ∧ r i < 1) →
      ∀ e ∈ (generateDepartureTimes st f 8 r idx).1,
        |e.estimated - e.scheduled| ≤ 120000 ∧ st < e.estimated) ∧
    (∀ (now : ℚ) (r : ℕ → ℚ) (ln : Option String) (p : JourneyPattern)
      (ps : List JourneyPattern) (j : ℕ) (acc : List TimeData),
      jsTruthyStr p.timingLinkRef = true →
      estLoop now r (some ln) (p :: ps) j acc =
        estLoop now r (some ln) ps (j + 8)
          (acc ++ (generateDepartureTimes now (estimateFrequency ln) 8 r j).1)) ∧
    (∀ (now : ℚ) (r : ℕ → ℚ) (lns : Option TXCLines)
      (jp : JsArr JourneyPattern) (idx : ℕ),
      extractServiceTimes now r ⟨lns, some ⟨some jp⟩⟩ idx =
        estLoop now r ((lns.bind (·.line)).map (·.lineName))
          (jsArrToList jp) idx []) := by
  refine ⟨rfl, ?_, ?_, ?_, ?_, ?_⟩
  · intro n h
    simp [estimateFrequency, h]
  · intro st f r idx
    exact generateDepartureTimes_eq st f 8 r idx
  · intro st f r idx hr
    exact generateDepartureTimes_bounds st f 8 r idx hr
  · intro now r ln p ps j acc hp
    exact estLoop_truthy_step now r ln p ps j acc hp
  · intro now r lns jp idx
    rfl

/-- C9 witness: route `"99"` is outside the frequency table; the constant
draw `1/2` is a legal random stream; a pattern with timing-link ref
`"TL"` triggers one synthesis for line `"10"`. -/
theorem c9_departure_synthesis_witness :
    (frequencies.find? (fun p => p.1 == "99") = none ∧
     estimateFrequency (some "99") = 30) ∧
    ((∀ i : ℕ, 0 ≤ failWorld.rand i ∧ failWorld.rand i < 1) ∧
     ∀ e ∈ (generateDepartureTimes 0 20 8 failWorld.rand 0).1,
       |e.estimated - e.scheduled| ≤ 120000 ∧ (0 : ℚ) < e.estimated) ∧
    (jsTruthyStr (⟨some "TL"⟩ : JourneyPattern).timingLinkRef = true ∧
     estLoop 0 failWorld.rand (some (some "10")) [⟨some "TL"⟩] 0 [] =
       estLoop 0 failWorld.rand (some (some "10")) [] (0 + 8)
         ([] ++ (generateDepartureTimes 0 (estimateFrequency (some "10")) 8
             failWorld.rand 0).1)) :=
  ⟨⟨by decide, c9_departure_synthesis.2.1 "99" (by decide)⟩,
   ⟨fun i => ⟨by norm_num [failWorld], by norm_num [failWorld]⟩,
    c9_departure_synthesis.2.2.2.1 0 20 failWorld.rand 0
      (fun i => ⟨by norm_num [failWorld], by norm_num [failWorld]⟩)⟩,
   ⟨rfl,
    c9_departure_synthesis.2.2.2.2.1 0 failWorld.rand (some "10") ⟨some "TL"⟩
      [] 0 [] rfl⟩⟩

/-- C2 counterexample: a world whose dataset-metadata fetch succeeds with a
download URL but whose dataset-body fetch returns a non-success HTTP status:
`fetchTimetableData` yields the empty mapping with NO failure signal (the
warning list is empty) — the non-success body status is silently swallowed
by the `if (timetableResponse.ok)` guard, refuting the claim that every
non-success status produces an observable failure signal. -/
theorem c2_counterexample :
    silentBodyWorld.metadataFetch "18509" =
      .response true (.ok ⟨some "https://data.example/timetable.xml"⟩) ∧
    silentBodyWorld.bodyFetch "https://data.example/timetable.xml" =
      .response false (.error ()) ∧
    fetchTimetableData silentBodyWorld ["18509"] 0 = ([], [], 0) :=
  ⟨rfl, rfl, rfl⟩

/-- C2 (amended): a failing dataset-metadata fetch (rejection or non-success
status) always produces a warning signal naming the dataset and yields no
data; a network rejection of the dataset-body fetch is likewise warned and
yields no data; but a non-success status on the dataset-body fetch silently
yields no data for the dataset with no failure signal at all. -/
theorem c2_fetch_failure_signals (w : World) (d : String) (idx : ℕ) :
    (datasetFetchFails w d →
      fetchTimetableData w [d] idx = ([], [d], idx)) ∧
    (∀ u : String,
      w.metadataFetch d = .response true (.ok ⟨some u⟩) →
      u ≠ "" →
      w.bodyFetch u = .networkError →
      fetchTimetableData w [d] idx = ([], [d], idx)) ∧
    (∀ (u : String) (b : Except Unit TXCDoc),
      w.metadataFetch d = .response true (.ok ⟨some u⟩) →
      w.bodyFetch u = .response false b →
      fetchTimetableData w [d] idx = ([], [], idx)) := by
  refine ⟨?_, ?_, ?_⟩
  · intro h
    exact fetchTimetableData_allFail w [d] idx
      (fun x hx => by rw [List.mem_singleton.mp hx]; exact h)
  · intro u hm hne hb
    have he : (u == "") = false := by simp [hne]
    simp [fetchTimetableData, fetchLoop, hm, he, hb]
  · intro u b hm hb
    by_cases he : u == "" <;>
      simp [fetchTimetableData, fetchLoop, hm, hb, he]

/-- C2 witness: the all-failing world warns for the dataset; the
reject-body world warns for the dataset after a successful metadata fetch;
the silent-body world yields empty data with no warning. -/
theorem c2_fetch_failure_signals_witness :
    datasetFetchFails failWorld "18509" ∧
    fetchTimetableData failWorld ["18509"] 0 = ([], ["18509"], 0) ∧
    rejectBodyWorld.metadataFetch "18509" =
      .response true (.ok ⟨some "https://data.example/timetable.xml"⟩) ∧
    ("https://data.example/timetable.xml" ≠ "") ∧
    rejectBodyWorld.bodyFetch "https://data.example/timetable.xml" =
      .networkError ∧
    fetchTimetableData rejectBodyWorld ["18509"] 0 = ([], ["18509"], 0) ∧
    silentBodyWorld.metadataFetch "15890" =
      .response true (.ok ⟨some "https://data.example/timetable.xml"⟩) ∧
    silentBodyWorld.bodyFetch "https://data.example/timetable.xml" =
      .response false (.error ()) ∧
    fetchTimetableData silentBodyWorld ["15890"] 0 = ([], [], 0) :=
  ⟨Or.inl rfl,
   (c2_fetch_failure_signals failWorld "18509" 0).1 (Or.inl rfl),
   rfl, by decide, rfl,
   (c2_fetch_failure_signals rejectBodyWorld "18509" 0).2.1
     "https://data.example/timetable.xml" rfl (by decide) rfl,
   rfl, rfl,
   (c2_fetch_failure_signals silentBodyWorld "15890" 0).2.2
     "https://data.example/timetable.xml" (.error ()) rfl rfl⟩

set_option maxRecDepth 40000 in
/-- C1 counterexample: with every dataset fetch of Stand Q failing (and the
live feed failing too), the fresh call returns 8 entries — not at most 6 —
and writes them to the cache at the default TTL (expiry `now + 300·1000` ms,
not the shorter 60 s fallback override): the failure never reaches the
`catch` arm because `fetchTimetableData` swallows per-dataset errors. -/
theorem c1_counterexample :
    datasetFetchFails failWorld "15890" ∧
    lookupStop "079073279C" =
      some (⟨"Cleveland Centre (Stand Q)", ["Arriva"], ["29", "63"],
        ["15890"]⟩ : StopConfig) ∧
    liveFetchFails failWorld ∧
    ¬ ((resList (getBusTimesForStop failWorld initialState "079073279C" 0).1).length ≤ 6) ∧
    ((getBusTimesForStop failWorld initialState "079073279C" 0).2.1.cache.entries.map
       (fun e => (e.key, e.expiresAt))) = [(stopCacheKey "079073279C", 300000)] := by
  refine ⟨Or.inl rfl, by decide, Or.inl rfl, by with_unfolding_all decide, ?_⟩
  rw [getBusTimesForStop_fresh failWorld initialState "079073279C"
    ⟨"Cleveland Centre (Stand Q)", ["Arriva"], ["29", "63"], ["15890"]⟩ 0 rfl
    (by decide)]
  simp only [cacheSet, initialState, failWorld, List.filter_nil, List.map_cons,
    List.map_nil, Option.getD_none]
  norm_num

/-- C1 (amended): when every one of a registered stop's dataset fetches
fails (and the shared live feed also fails with nothing cached), the call
still succeeds on the normal path: it returns per-route fallback services —
every entry has `source = fallback` — sorted, capped at 8 (not 6), and
cached at the DEFAULT TTL (the `set` carries no TTL override), because
`fetchTimetableData` absorbs each dataset failure and returns an empty
mapping instead of throwing. -/
theorem c1_all_datasets_fail (w : World) (st : SState) (stopId : String)
    (cfg : StopConfig) (idx : ℕ)
    (hreg : lookupStop stopId = some cfg)
    (hmiss : cacheGet st.cache w.now (stopCacheKey stopId) = none)
    (hds : ∀ d ∈ cfg.datasets, datasetFetchFails w d)
    (hvc : cacheGet st.vehicleCache w.now "vehicle_positions" = none)
    (hlive : liveFetchFails w) :
    (getBusTimesForStop w st stopId idx).1 =
      .ok (resList (getBusTimesForStop w st stopId idx).1) ∧
    (∀ s ∈ resList (getBusTimesForStop w st stopId idx).1,
       s.source = Source.fallback) ∧
    SortedEff (resList (getBusTimesForStop w st stopId idx).1) ∧
    (resList (getBusTimesForStop w st stopId idx).1).length ≤ 8 ∧
    (getBusTimesForStop w st stopId idx).2.1.cache =
      cacheSet st.cache w.now (stopCacheKey stopId)
        (resList (getBusTimesForStop w st stopId idx).1) none := by
  have htd := fetchTimetableData_allFail w cfg.datasets idx hds
  have hveh := getVehiclePositions_fail w st.vehicleCache hvc hlive
  rw [getBusTimesForStop_fresh w st stopId cfg idx hmiss hreg]
  have hfs : freshServices w st cfg idx = processBusServices w cfg [] [] idx := by
    unfold freshServices
    rw [htd, hveh]
  rw [resList_ok, hfs]
  refine ⟨rfl, ?_, ?_, ?_, rfl⟩
  · intro s hs
    rw [processBusServices_eq] at hs
    simp only [enhance_nil_vehicles] at hs
    exact buildRouteServices_nil_td_fallback cfg.routes ([], idx)
      (by intro x hx; simp at hx) s
      (mem_sortByEff.mp (mem_of_mem_take hs))
  · exact processBusServices_sorted w cfg _ _ _
  · exact processBusServices_capped w cfg _ _ _

/-- C1 witness: Stand Q in the all-failing world against the initial
state. -/
theorem c1_all_datasets_fail_witness :
    lookupStop "079073279C" =
      some (⟨"Cleveland Centre (Stand Q)", ["Arriva"], ["29", "63"],
        ["15890"]⟩ : StopConfig) ∧
    cacheGet initialState.cache failWorld.now (stopCacheKey "079073279C") = none ∧
    (∀ d ∈ (⟨"Cleveland Centre (Stand Q)", ["Arriva"], ["29", "63"],
        ["15890"]⟩ : StopConfig).datasets, datasetFetchFails failWorld d) ∧
    cacheGet initialState.vehicleCache failWorld.now "vehicle_positions" = none ∧
    liveFetchFails failWorld ∧
    ((getBusTimesForStop failWorld initialState "079073279C" 0).1 =
      .ok (resList (getBusTimesForStop failWorld initialState "079073279C" 0).1) ∧
     (∀ s ∈ resList (getBusTimesForStop failWorld initialState "079073279C" 0).1,
        s.source = Source.fallback) ∧
     SortedEff (resList (getBusTimesForStop failWorld initialState "079073279C" 0).1) ∧
     (resList (getBusTimesForStop failWorld initialState "079073279C" 0).1).length ≤ 8 ∧
     (getBusTimesForStop failWorld initialState "079073279C" 0).2.1.cache =
       cacheSet initialState.cache failWorld.now (stopCacheKey "079073279C")
         (resList (getBusTimesForStop failWorld initialState "079073279C" 0).1)
         none) :=
  ⟨by decide, rfl, fun d _ => Or.inl rfl, rfl, Or.inl rfl,
   c1_all_datasets_fail failWorld initialState "079073279C"
     ⟨"Cleveland Centre (Stand Q)", ["Arriva"], ["29", "63"], ["15890"]⟩ 0
     (by decide) rfl (fun d _ => Or.inl rfl) rfl (Or.inl rfl)⟩

/-- C8: the global query produces one list per registered stop (the
reduction itself cannot fail); it returns `none` exactly when no service
exists across all stops; and a returned service attains the minimum
effective time over every service of every stop, being the first service
with that minimum in stop-iteration order (everything before it is strictly
later). -/
theorem c8_next_bus_global (w : World) (st : SState) (idx : ℕ) :
    ((getAllClevelandCentreData w st idx).1.map (·.1) = stops.map (·.1)) ∧
    ((getNextBusGlobally w st idx).1 = none ↔
      ((getAllClevelandCentreData w st idx).1.map (·.2)).flatten = []) ∧
    (∀ b, (getNextBusGlobally w st idx).1 = some b →
      (∃ l1 l2,
        ((getAllClevelandCentreData w st idx).1.map (·.2)).flatten =
          l1 ++ b :: l2 ∧ ∀ x ∈ l1, effTime b < effTime x) ∧
      ∀ x ∈ ((getAllClevelandCentreData w st idx).1.map (·.2)).flatten,
        effTime b ≤ effTime x) := by
  have hfn : (getNextBusGlobally w st idx).1 =
      (((getAllClevelandCentreData w st idx).1.map (·.2)).flatten).foldl
        pickEarlier none := by
    rw [show (getNextBusGlobally w st idx).1 =
        findNextBus ((getAllClevelandCentreData w st idx).1.map (·.2)) from rfl,
      findNextBus_eq_flatten]
  refine ⟨?_, ?_, ?_⟩
  · have h := runStops_keys w stops ([], st, idx)
    simpa using h
  · rw [hfn]
    exact (foldl_pickEarlier_char _).1
  · intro b hb
    rw [hfn] at hb
    exact (foldl_pickEarlier_char _).2 b hb

set_option maxRecDepth 40000 in
/-- C8 witness: with every stop served from the primed cache, the first two
stops tie on effective time 300000 and the returned service is the one from
the first stop in registry order. -/
theorem c8_next_bus_global_witness :
    ((getNextBusGlobally failWorld primedState 0).1 =
      some (⟨"10", "Lingfield Park", some "Stagecoach", 300000, 300000,
        Status.onTime, Source.fallback⟩ : Service)) ∧
    ((∃ l1 l2,
        ((getAllClevelandCentreData failWorld primedState 0).1.map (·.2)).flatten =
          l1 ++ (⟨"10", "Lingfield Park", some "Stagecoach", 300000, 300000,
            Status.onTime, Source.fallback⟩ : Service) :: l2 ∧
        ∀ x ∈ l1,
          effTime (⟨"10", "Lingfield Park", some "Stagecoach", 300000, 300000,
            Status.onTime, Source.fallback⟩ : Service) < effTime x) ∧
     ∀ x ∈ ((getAllClevelandCentreData failWorld primedState 0).1.map (·.2)).flatten,
       effTime (⟨"10", "Lingfield Park", some "Stagecoach", 300000, 300000,
         Status.onTime, Source.fallback⟩ : Service) ≤ effTime x) :=
  ⟨by decide,
   (c8_next_bus_global failWorld primedState 0).2.2
     ⟨"10", "Lingfield Park", some "Stagecoach", 300000, 300000,
       Status.onTime, Source.fallback⟩
     (by decide)⟩

example : determineStatus 0 60000 = .onTime := by with_unfolding_all decide
example : determineStatus 0 (6 * 60000) = .delayed := by with_unfolding_all decide
example : determineStatus 0 (-(4 * 60000)) = .early := by with_unfolding_all decide
example : determineStatus 0 (3 * 60000) = .estimated := by with_unfolding_all decide
example : calculateETA (1/2) = 4 := by with_unfolding_all decide
example : estimateFrequency (some "99") = 30 := by with_unfolding_all decide
